import Mathlib

/-!
Shallow embedding of `scripts/dino.py` from sd-webui-segment-anything:
a GroundingDINO integration layer with a single-slot model cache
(`load_dino_model` / `clear_dino_cache`), a threshold filter over
detection logits (`get_grounding_output`), a normalized-center-size to
pixel-corner box transform (`dino_predict_internal`), and a box-drawing
helper (`show_boxes`).

Python floats are modelled as rationals (ℚ).  External collaborators
(cv2 drawing primitives, the GroundingDINO library's model construction,
image preprocessing and forward pass, torch device placement) are
modelled as opaque parameters or as outcome flags, exactly at the
boundaries where the source calls out of the repository.
-/

namespace Dino

/-- RGBA color, as used by the cv2 drawing calls in `show_boxes`. -/
abbrev Color := ℕ × ℕ × ℕ × ℕ

/-- A four-component box.  Depending on the pipeline stage this is either
a normalized center-size box (cx, cy, w, h) or a pixel corner box
(x0, y0, x1, y1). -/
abbrev Box4 := ℚ × ℚ × ℚ × ℚ

/-- The cv2 drawing primitives used by `show_boxes` (`cv2.rectangle`,
`cv2.getTextSize`, `cv2.putText`).  These live in the external OpenCV
library, so they are supplied as opaque operations over an arbitrary
image type; `show_boxes` itself never inspects image contents. -/
structure DrawTools (Image : Type) where
  rectangle : Image → (ℤ × ℤ) → (ℤ × ℤ) → Color → ℕ → Image
  getTextSizeH : String → ℤ
  putText : Image → String → (ℤ × ℤ) → Color → ℕ → Image

/-- Embedding of `show_boxes(image_np, boxes, color, thickness, show_index)`
(dino.py lines 48-62).  The returned Bool records Python object identity:
`false` means the function returned the input object itself
(`return image_np`, line 50), `true` means it returned the fresh object
produced by `copy.deepcopy` (line 52).  `copy.deepcopy` preserves content,
so the image component of the copy starts out equal to the input.  Boxes
are unpacked as `x, y, w, h` and drawn with corners `(x, y)` and `(w, h)`
exactly as in the source. -/
def show_boxes {Image : Type} (tools : DrawTools Image) (image_np : Image)
    (boxes : Option (List (ℤ × ℤ × ℤ × ℤ))) (color : Color) (thickness : ℕ)
    (show_idx : Bool) : Image × Bool :=
  match boxes with
  | none => (image_np, false)
  | some bs =>
    let image := image_np
    let image := bs.enum.foldl (fun img p =>
      let idx := p.1
      let x := p.2.1
      let y := p.2.2.1
      let w := p.2.2.2.1
      let h := p.2.2.2.2
      let img := tools.rectangle img (x, y) (w, h) color thickness
      if show_idx then
        let text := toString idx
        let textsizeH := tools.getTextSizeH text
        tools.putText img text (x, y + textsizeH) color thickness
      else img) image
    (image, true)

/-- Concrete drawing tools over a trivial image type, used only to state
closed facts about `show_boxes` at a concrete input. -/
def natTools : DrawTools ℕ where
  rectangle := fun img _ _ _ _ => img + 1
  getTextSizeH := fun _ => 1
  putText := fun img _ _ _ _ => img + 1

/-- The failure modes of `load_dino_model` the spec calls `ModelLoadError`:
`SLConfig.fromfile` raising (line 82) or the checkpoint download/load
raising (lines 84-87). -/
inductive ModelLoadError where
  | configParseFailed
  | checkpointLoadFailed
deriving DecidableEq

/-- State of the module-level mutable globals of dino.py together with
observation counters for the external side effects.  `cache` embeds the
`dino_model_cache` OrderedDict as an association list from checkpoint
name to model handle; model handles are numbered by `nextId` so that two
handles are the same Python object exactly when their numbers are equal.
`locs` records, per handle, whether the model currently sits on the
active compute device (`model.to(device)` / `model.to(cpu)`).
`builds` counts `build_model` calls and `downloads` counts
`torch.hub.load_state_dict_from_url` calls, so that re-construction and
re-downloading are observable. -/
structure DinoState where
  cache : List (String × ℕ)
  locs : List (ℕ × Bool)
  nextId : ℕ
  builds : ℕ
  downloads : ℕ
deriving DecidableEq

/-- The state at interpreter start: empty cache, no models built. -/
def initState : DinoState := ⟨[], [], 0, 0, 0⟩

/-- Membership test plus lookup in the cache association list, embedding
`dino_checkpoint in dino_model_cache` and `dino_model_cache[dino_checkpoint]`
(lines 73-74). -/
def cacheFind (k : String) : List (String × ℕ) → Option ℕ
  | [] => none
  | (k2, v) :: rest => if k2 = k then some v else cacheFind k rest

/-- Record the device placement of model handle `m` (`model.to(...)`);
`true` means on the active compute device, `false` means host memory. -/
def setLoc (m : ℕ) (v : Bool) (locs : List (ℕ × Bool)) : List (ℕ × Bool) :=
  (m, v) :: locs.filter (fun p => p.1 ≠ m)

/-- Embedding of `clear_dino_cache()` (lines 65-68): empties the cache.
`gc.collect()` and `torch_gc()` only reclaim memory of unreferenced
objects and do not change any state modelled here. -/
def clear_dino_cache (s : DinoState) : DinoState :=
  { s with cache := [] }

/-- Embedding of `load_dino_model(dino_checkpoint)` (lines 71-92).
`lowvram` is the host flag `shared.cmd_opts.lowvram`.  The external
outcomes of `SLConfig.fromfile` and of the checkpoint download/load are
supplied as the flags `configOk` and `loadOk`; when one is `false` the
corresponding Python call raises and the exception propagates, embedded
as `Except.error`.  On a cache hit the cached handle is returned (after
moving it onto the compute device under `lowvram`); on a miss the cache
is cleared, the model is built, its weights downloaded and loaded, the
model is moved to the device and inserted as the sole cache entry.
`dino.eval()` toggles a flag on the external model object and is not
reflected in the modelled state. -/
def load_dino_model (lowvram configOk loadOk : Bool) (dino_checkpoint : String)
    (s : DinoState) : Except ModelLoadError ℕ × DinoState :=
  match cacheFind dino_checkpoint s.cache with
  | some dino =>
    let s := if lowvram then { s with locs := setLoc dino true s.locs } else s
    (Except.ok dino, s)
  | none =>
    let s := clear_dino_cache s
    if configOk = false then (Except.error ModelLoadError.configParseFailed, s)
    else
      let dino := s.nextId
      let s := { s with nextId := s.nextId + 1, builds := s.builds + 1 }
      if loadOk = false then (Except.error ModelLoadError.checkpointLoadFailed, s)
      else
        let s := { s with downloads := s.downloads + 1,
                          locs := setLoc dino true s.locs,
                          cache := s.cache ++ [(dino_checkpoint, dino)] }
        (Except.ok dino, s)

/-- A PIL image, of which the pipeline only reads `size = (width, height)`
and whose pixel data flows straight into the external preprocessing. -/
structure PILImage where
  width : ℕ
  height : ℕ
deriving DecidableEq

/-- `image.size` in PIL order: `(width, height)`, so that `size[0]` is the
width and `size[1]` the height, as read on line 143 of dino.py. -/
def PILImage.size (im : PILImage) : ℕ × ℕ := (im.width, im.height)

/-- The tensors `get_grounding_output` reads off the external model's
forward pass (lines 115-119): `pred_logits` holds, per query, the row of
sigmoid-activated per-class confidences (`outputs["pred_logits"].sigmoid()[0]`,
values in [0,1]) and `pred_boxes` the normalized center-size boxes
(`outputs["pred_boxes"][0]`).  The forward pass and the sigmoid run inside
the external GroundingDINO/torch libraries, so a model's behavior is
supplied as a function from model handle, input image and normalized
caption to this output. -/
structure ModelOutput where
  pred_logits : List (List ℚ)
  pred_boxes : List Box4
deriving DecidableEq

/-- Caption normalization of lines 109-112: lowercase, strip surrounding
whitespace, append a final period when missing. -/
def normalizeCaption (caption : String) : String :=
  let c := caption.toLower.trim
  if c.endsWith "." then c else c ++ "."

/-- `logits_filt.max(dim=1)[0]` for one query row (line 124): the maximum
confidence across classes.  torch leaves the maximum of an empty row
undefined (it raises); the model emits 256 classes per query, and for an
empty row we return 0, below every meaningful threshold. -/
def rowMax : List ℚ → ℚ
  | [] => 0
  | h :: t => t.foldl max h

/-- Boolean-mask indexing `tensor[filt_mask]` (lines 125-126): keep the
rows whose mask entry is `true`, preserving order. -/
def applyMask {α : Type} : List Bool → List α → List α
  | b :: bs, x :: xs => if b then x :: applyMask bs xs else applyMask bs xs
  | _, _ => []

/-- The filter stage of `get_grounding_output` (lines 121-126): build the
mask `logits.max(dim=1)[0] > box_threshold` and index both the logits and
the boxes with it. -/
def filterOutputs (logits : List (List ℚ)) (boxes : List Box4) (t : ℚ) :
    List (List ℚ) × List Box4 :=
  let filt_mask := logits.map (fun row => decide (rowMax row > t))
  (applyMask filt_mask logits, applyMask filt_mask boxes)

/-- Embedding of `get_grounding_output(model, image, caption, box_threshold)`
(lines 108-128): normalize the caption, run the external forward pass,
move the model off the compute device under `lowvram`, and return the
threshold-filtered boxes.  `forward` stands for the external
`model(image[None], captions=[caption])` composed with the sigmoid and
batch indexing of lines 118-119. -/
def get_grounding_output (lowvram : Bool)
    (forward : ℕ → PILImage → String → ModelOutput) (model : ℕ)
    (image : PILImage) (caption : String) (box_threshold : ℚ)
    (s : DinoState) : List Box4 × DinoState :=
  let caption := normalizeCaption caption
  let out := forward model image caption
  let s := if lowvram then { s with locs := setLoc model false s.locs } else s
  ((filterOutputs out.pred_logits out.pred_boxes box_threshold).2, s)

/-- The per-box rescale of lines 144-147: multiply the normalized
center-size box by `(W, H, W, H)`, subtract half the scaled size from the
center (`boxes_filt[i][:2] -= boxes_filt[i][2:] / 2`), then add the new
top-left to the scaled size (`boxes_filt[i][2:] += boxes_filt[i][:2]`). -/
def rescaleBox (W H : ℚ) : Box4 → Box4
  | (cx, cy, w, h) =>
    let b0 := (cx * W, cy * H, w * W, h * H)
    let b1 := (b0.1 - b0.2.2.1 / 2, b0.2.1 - b0.2.2.2 / 2, b0.2.2.1, b0.2.2.2)
    (b1.1, b1.2.1, b1.2.2.1 + b1.1, b1.2.2.2 + b1.2.1)

/-- Embedding of
`dino_predict_internal(input_image, dino_model_name, text_prompt, box_threshold)`
(lines 131-150).  `installOk` is the boolean returned by the installer
`install_goundingdino()`, whose pip machinery is external; when it is
`false` the function returns `(None, False)` before touching the cache.
Otherwise the model is loaded through the cache (a load failure
propagates as `Except.error`), the forward output is filtered, and each
kept box is rescaled with `W = input_image.size[0]`,
`H = input_image.size[1]`.  The final `gc.collect()`/`torch_gc()` only
reclaim memory and do not change modelled state. -/
def dino_predict_internal (installOk lowvram configOk loadOk : Bool)
    (forward : ℕ → PILImage → String → ModelOutput) (input_image : PILImage)
    (dino_model_name : String) (text_prompt : String) (box_threshold : ℚ)
    (s : DinoState) :
    Except ModelLoadError (Option (List Box4) × Bool) × DinoState :=
  if installOk = false then (Except.ok (none, false), s)
  else
    match load_dino_model lowvram configOk loadOk dino_model_name s with
    | (Except.error e, s1) => (Except.error e, s1)
    | (Except.ok dino_model, s1) =>
      let r := get_grounding_output lowvram forward dino_model input_image
        text_prompt box_threshold s1
      let H : ℚ := input_image.size.2
      let W : ℚ := input_image.size.1
      let boxes_filt := r.1.map (rescaleBox W H)
      (Except.ok (some boxes_filt, true), r.2)

/-- The inverse conversion described by the spec's round-trip property
(not present in the source): convert a pixel-space corner box back to
center-size form and divide by the image dimensions to recover the
normalized center-size box. -/
def cornerToCenterNormSpec (W H : ℚ) : Box4 → Box4
  | (x0, y0, x1, y1) =>
    ((x0 + x1) / 2 / W, (y0 + y1) / 2 / H, (x1 - x0) / W, (y1 - y0) / H)

/-- A 640×480 test image. -/
def imgVGA : PILImage := ⟨640, 480⟩

/-- A stubbed model: one query with confidence 0.5 and normalized
center-size box (0.5, 0.5, 0.2, 0.4). -/
def stubHigh : ℕ → PILImage → String → ModelOutput :=
  fun _ _ _ => ⟨[[(1 : ℚ) / 2]], [((1 : ℚ) / 2, 1 / 2, 1 / 5, 2 / 5)]⟩

/-- A stubbed model: one query with confidence 0.2 and normalized
center-size box (0.5, 0.5, 0.2, 0.4). -/
def stubLow : ℕ → PILImage → String → ModelOutput :=
  fun _ _ _ => ⟨[[(1 : ℚ) / 5]], [((1 : ℚ) / 2, 1 / 2, 1 / 5, 2 / 5)]⟩

end Dino

/-- C1: the claim states that `show_boxes` with `boxes = none` or
`boxes = []` returns a copy of the input (not the input object itself).
This is false for `boxes = none`: line 50 of dino.py returns `image_np`
itself, before the `copy.deepcopy` on line 52 is ever reached.  At the
concrete input image `7` with `boxes = none`, the returned image is not a
copy. -/
theorem show_boxes_none_not_copy :
    (Dino.show_boxes Dino.natTools 7 none (255, 0, 0, 255) 2 false).2 = false := rfl

/-- C1 (amended): `show_boxes` with `boxes = none` returns the input
object itself, equal in content but not a copy; with `boxes = some []`
it returns a fresh copy whose content equals the input (the drawing loop
body never runs). -/
theorem show_boxes_empty_copy {Image : Type} (tools : Dino.DrawTools Image)
    (image_np : Image) (color : Dino.Color) (thickness : ℕ) (show_idx : Bool) :
    Dino.show_boxes tools image_np none color thickness show_idx
      = (image_np, false) ∧
    Dino.show_boxes tools image_np (some []) color thickness show_idx
      = (image_np, true) := by
  constructor <;> rfl

/-- Setting the same device placement twice is the same as setting it once. -/
theorem setLoc_setLoc (m : ℕ) (v : Bool) (l : List (ℕ × Bool)) :
    Dino.setLoc m v (Dino.setLoc m v l) = Dino.setLoc m v l := by
  simp [Dino.setLoc, List.filter_cons, List.filter_filter]

/-- A cache of at most one entry in which `cacheFind` succeeds is exactly
the singleton holding that entry. -/
theorem cacheFind_singleton (k : String) (c : List (String × ℕ))
    (h : c.length ≤ 1) (m : ℕ) (hf : Dino.cacheFind k c = some m) :
    c = [(k, m)] := by
  cases c with
  | nil => simp [Dino.cacheFind] at hf
  | cons x rest =>
    cases rest with
    | cons a l => simp at h
    | nil =>
      obtain ⟨k2, v⟩ := x
      by_cases hk : k2 = k
      · subst hk
        simp [Dino.cacheFind] at hf
        subst hf
        rfl
      · simp [Dino.cacheFind, hk] at hf

/-- After a successful `load_dino_model` call on a cache holding at most
one entry, the cache is exactly the singleton for the requested
checkpoint. -/
theorem load_dino_model_cache_key (lowvram : Bool) (A : String)
    (s : Dino.DinoState) (hs : s.cache.length ≤ 1) :
    ∃ m, ((Dino.load_dino_model lowvram true true A s).2).cache = [(A, m)] := by
  cases hfind : Dino.cacheFind A s.cache with
  | some m =>
    have hc := cacheFind_singleton A s.cache hs m hfind
    refine ⟨m, ?_⟩
    cases lowvram <;> simp [Dino.load_dino_model, hfind, hc, Dino.cacheFind]
  | none =>
    refine ⟨s.nextId, ?_⟩
    simp [Dino.load_dino_model, hfind, Dino.clear_dino_cache]

/-- C2: the model cache is single-slot.  Starting from any state whose
cache holds at most one entry (the invariant every reachable state
satisfies), after `load_dino_model A` the cache is exactly A's singleton,
and after a subsequent `load_dino_model B` with A ≠ B it is exactly B's
singleton: exactly one entry remains and its key is B's checkpoint name,
the insertion on a miss having been preceded by `clear_dino_cache`. -/
theorem dino_cache_single_slot (lowvram : Bool) (A B : String)
    (s : Dino.DinoState) (hAB : A ≠ B) (hs : s.cache.length ≤ 1) :
    ∃ mA mB,
      ((Dino.load_dino_model lowvram true true A s).2).cache = [(A, mA)] ∧
      ((Dino.load_dino_model lowvram true true B
          ((Dino.load_dino_model lowvram true true A s).2)).2).cache
        = [(B, mB)] := by
  obtain ⟨mA, h1⟩ := load_dino_model_cache_key lowvram A s hs
  set s1 := (Dino.load_dino_model lowvram true true A s).2 with hs1
  have hfindB : Dino.cacheFind B s1.cache = none := by
    rw [h1]
    simp [Dino.cacheFind, hAB]
  refine ⟨mA, s1.nextId, h1, ?_⟩
  simp [Dino.load_dino_model, hfindB, Dino.clear_dino_cache]

/-- C2 witness: two distinct loads from the initial state. -/
theorem dino_cache_single_slot_witness :
    ∃ mA mB,
      ((Dino.load_dino_model false true true "a" Dino.initState).2).cache
        = [("a", mA)] ∧
      ((Dino.load_dino_model false true true "b"
          ((Dino.load_dino_model false true true "a" Dino.initState).2)).2).cache
        = [("b", mB)] :=
  dino_cache_single_slot false "a" "b" Dino.initState (by decide) (by decide)

/-- C3: `load_dino_model` is idempotent.  Loading the same checkpoint
twice in a row returns the same model handle the second time, leaves the
entire state (cache included) exactly as after the first call, and in
particular performs no new checkpoint download and no new model
construction. -/
theorem load_dino_model_idempotent (lowvram : Bool) (A : String)
    (s : Dino.DinoState) :
    (Dino.load_dino_model lowvram true true A
        ((Dino.load_dino_model lowvram true true A s).2)).1
      = (Dino.load_dino_model lowvram true true A s).1 ∧
    (Dino.load_dino_model lowvram true true A
        ((Dino.load_dino_model lowvram true true A s).2)).2
      = (Dino.load_dino_model lowvram true true A s).2 ∧
    ((Dino.load_dino_model lowvram true true A
        ((Dino.load_dino_model lowvram true true A s).2)).2).downloads
      = ((Dino.load_dino_model lowvram true true A s).2).downloads ∧
    ((Dino.load_dino_model lowvram true true A
        ((Dino.load_dino_model lowvram true true A s).2)).2).builds
      = ((Dino.load_dino_model lowvram true true A s).2).builds := by
  cases hfind : Dino.cacheFind A s.cache with
  | some m =>
    cases lowvram <;>
      simp [Dino.load_dino_model, hfind, setLoc_setLoc]
  | none =>
    cases lowvram <;>
      simp [Dino.load_dino_model, hfind, Dino.clear_dino_cache, Dino.cacheFind,
        setLoc_setLoc]

/-- C9: atomicity of model loading on error.  If the checkpoint is not
cached and either the config parse or the checkpoint download/load fails,
`load_dino_model` propagates the error and the cache is left empty: in
particular it holds no entry for the model whose weights did not load. -/
theorem load_dino_model_error_atomic (lowvram configOk loadOk : Bool)
    (k : String) (s : Dino.DinoState)
    (hmiss : Dino.cacheFind k s.cache = none)
    (hfail : configOk = false ∨ loadOk = false) :
    (∃ e, (Dino.load_dino_model lowvram configOk loadOk k s).1
        = Except.error e) ∧
    ((Dino.load_dino_model lowvram configOk loadOk k s).2).cache = [] := by
  rcases hfail with hc | hd
  · subst hc
    exact ⟨⟨Dino.ModelLoadError.configParseFailed, by
      simp [Dino.load_dino_model, hmiss, Dino.clear_dino_cache]⟩, by
      simp [Dino.load_dino_model, hmiss, Dino.clear_dino_cache]⟩
  · subst hd
    cases configOk with
    | false =>
      exact ⟨⟨Dino.ModelLoadError.configParseFailed, by
        simp [Dino.load_dino_model, hmiss, Dino.clear_dino_cache]⟩, by
        simp [Dino.load_dino_model, hmiss, Dino.clear_dino_cache]⟩
    | true =>
      exact ⟨⟨Dino.ModelLoadError.checkpointLoadFailed, by
        simp [Dino.load_dino_model, hmiss, Dino.clear_dino_cache]⟩, by
        simp [Dino.load_dino_model, hmiss, Dino.clear_dino_cache]⟩

/-- C9 witness: a failing config parse on the initial state. -/
theorem load_dino_model_error_atomic_witness :
    (∃ e, (Dino.load_dino_model false false true "a" Dino.initState).1
        = Except.error e) ∧
    ((Dino.load_dino_model false false true "a" Dino.initState).2).cache
      = [] :=
  load_dino_model_error_atomic false false true "a" Dino.initState rfl
    (Or.inl rfl)

/-- Indexing a list with the boolean mask obtained by mapping a predicate
over the list itself is filtering by that predicate. -/
theorem applyMask_map_self {α : Type} (p : α → Bool) (l : List α) :
    Dino.applyMask (l.map p) l = l.filter p := by
  induction l with
  | nil => rfl
  | cons x xs ih =>
    cases hp : p x <;> simp [Dino.applyMask, List.filter_cons, hp, ih]

/-- Indexing a second list of the same length with a mask mapped off the
first list keeps exactly the positions whose first component passes,
preserving order. -/
theorem applyMask_map_zip {α β : Type} (p : α → Bool) :
    ∀ (as : List α) (bs : List β), as.length = bs.length →
      Dino.applyMask (as.map p) bs
        = ((as.zip bs).filter (fun q => p q.1)).map Prod.snd := by
  intro as
  induction as with
  | nil =>
    intro bs h
    cases bs with
    | nil => rfl
    | cons b bs => simp at h
  | cons a as ih =>
    intro bs h
    cases bs with
    | nil => simp at h
    | cons b bs =>
      simp only [List.length_cons, Nat.add_right_cancel_iff] at h
      cases hp : p a <;>
        simp [Dino.applyMask, List.filter_cons, hp, ih bs h]

/-- Strengthening the predicate that generates a boolean mask can only
shrink the number of rows the mask keeps. -/
theorem applyMask_map_length_le {α β : Type} (p q : α → Bool)
    (himp : ∀ a, p a = true → q a = true) :
    ∀ (as : List α) (bs : List β),
      (Dino.applyMask (as.map p) bs).length
        ≤ (Dino.applyMask (as.map q) bs).length := by
  intro as
  induction as with
  | nil => intro bs; exact le_rfl
  | cons a as ih =>
    intro bs
    cases bs with
    | nil => simp [Dino.applyMask]
    | cons b bs =>
      cases hp : p a with
      | false =>
        cases hq : q a with
        | false =>
          simp only [List.map_cons, Dino.applyMask, hp, hq, if_false]
          exact ih bs
        | true =>
          simp only [List.map_cons, Dino.applyMask, hp, hq, if_false, if_true]
          exact le_trans (ih bs) (Nat.le_succ _)
      | true =>
        have hq := himp a hp
        simp only [List.map_cons, Dino.applyMask, hp, hq, if_true,
          List.length_cons]
        exact Nat.succ_le_succ (ih bs)

/-- A mask of all-false entries keeps nothing. -/
theorem applyMask_none {α : Type} :
    ∀ (bs : List Bool) (xs : List α), (∀ b ∈ bs, b = false) →
      Dino.applyMask bs xs = [] := by
  intro bs
  induction bs with
  | nil => intro xs _; cases xs <;> rfl
  | cons b bs ih =>
    intro xs h
    cases xs with
    | nil => rfl
    | cons x xs =>
      have hb : b = false := h b (List.mem_cons_self b bs)
      subst hb
      simp only [Dino.applyMask, if_false]
      exact ih xs (fun b' hb' => h b' (List.mem_cons_of_mem _ hb'))

/-- When every query's maximum confidence is at or below the threshold,
the filter stage keeps no boxes. -/
theorem filterOutputs_empty (logits : List (List ℚ)) (boxes : List Dino.Box4)
    (t : ℚ) (h : ∀ row ∈ logits, Dino.rowMax row ≤ t) :
    (Dino.filterOutputs logits boxes t).2 = [] := by
  unfold Dino.filterOutputs
  apply applyMask_none
  intro b hb
  rw [List.mem_map] at hb
  obtain ⟨row, hrow, hfb⟩ := hb
  rw [← hfb, decide_eq_false_iff_not]
  exact not_lt.mpr (h row hrow)

/-- C5: detection filtering is monotonically decreasing in the threshold
and is the strict-`>` mask filter.  For a fixed model output with as many
box rows as logit rows: raising the threshold never keeps more boxes, the
kept boxes are exactly the ones paired with a logit row whose maximum
confidence strictly exceeds the threshold (in order), and the logit rows
are filtered by the same mask. -/
theorem dino_filter_monotone_mask (logits : List (List ℚ))
    (boxes : List Dino.Box4) (t t1 t2 : ℚ) (h12 : t1 < t2)
    (hlen : logits.length = boxes.length) :
    ((Dino.filterOutputs logits boxes t2).2).length
      ≤ ((Dino.filterOutputs logits boxes t1).2).length ∧
    (Dino.filterOutputs logits boxes t).2
      = ((logits.zip boxes).filter
          (fun q => decide (Dino.rowMax q.1 > t))).map Prod.snd ∧
    (Dino.filterOutputs logits boxes t).1
      = logits.filter (fun row => decide (Dino.rowMax row > t)) := by
  refine ⟨?_, ?_, ?_⟩
  · unfold Dino.filterOutputs
    apply applyMask_map_length_le
    intro row hp
    rw [decide_eq_true_eq] at hp ⊢
    exact lt_trans h12 hp
  · exact applyMask_map_zip _ logits boxes hlen
  · exact applyMask_map_self _ logits

/-- C5 witness: two queries, thresholds 3/10 < 2/5; the higher threshold
keeps one box, the lower keeps both. -/
theorem dino_filter_monotone_mask_witness :
    ((Dino.filterOutputs [[(1 : ℚ) / 2], [(1 : ℚ) / 4]]
        [((0 : ℚ), 0, 0, 0), ((1 : ℚ), 1, 1, 1)] (2 / 5)).2).length
      ≤ ((Dino.filterOutputs [[(1 : ℚ) / 2], [(1 : ℚ) / 4]]
        [((0 : ℚ), 0, 0, 0), ((1 : ℚ), 1, 1, 1)] (3 / 10)).2).length ∧
    (Dino.filterOutputs [[(1 : ℚ) / 2], [(1 : ℚ) / 4]]
        [((0 : ℚ), 0, 0, 0), ((1 : ℚ), 1, 1, 1)] (3 / 10)).2
      = (([[(1 : ℚ) / 2], [(1 : ℚ) / 4]].zip
          [((0 : ℚ), 0, 0, 0), ((1 : ℚ), 1, 1, 1)]).filter
            (fun q => decide (Dino.rowMax q.1 > 3 / 10))).map Prod.snd ∧
    (Dino.filterOutputs [[(1 : ℚ) / 2], [(1 : ℚ) / 4]]
        [((0 : ℚ), 0, 0, 0), ((1 : ℚ), 1, 1, 1)] (3 / 10)).1
      = [[(1 : ℚ) / 2], [(1 : ℚ) / 4]].filter
          (fun row => decide (Dino.rowMax row > 3 / 10)) :=
  dino_filter_monotone_mask [[(1 : ℚ) / 2], [(1 : ℚ) / 4]]
    [((0 : ℚ), 0, 0, 0), ((1 : ℚ), 1, 1, 1)] (3 / 10) (3 / 10) (2 / 5)
    (by norm_num) (by decide)

/-- C4: when the installer reports the detection library unavailable,
`dino_predict_internal` returns `(none, false)` without raising and
leaves the state — the model cache included — untouched: `load_dino_model`
is never reached. -/
theorem dino_predict_install_fail (lowvram configOk loadOk : Bool)
    (forward : ℕ → Dino.PILImage → String → Dino.ModelOutput)
    (img : Dino.PILImage) (name prompt : String) (t : ℚ)
    (s : Dino.DinoState) :
    Dino.dino_predict_internal false lowvram configOk loadOk forward img
        name prompt t s
      = (Except.ok (none, false), s) := rfl

/-- A load with both external steps succeeding always returns a handle. -/
theorem load_dino_model_true_ok (lowvram : Bool) (k : String)
    (s : Dino.DinoState) :
    ∃ m, (Dino.load_dino_model lowvram true true k s).1 = Except.ok m := by
  cases hfind : Dino.cacheFind k s.cache with
  | some m => exact ⟨m, by simp [Dino.load_dino_model, hfind]⟩
  | none =>
    exact ⟨s.nextId, by
      simp [Dino.load_dino_model, hfind, Dino.clear_dino_cache]⟩

/-- C8: with the installer succeeding and the forward pass completing,
`dino_predict_internal` reports success even when every query falls at or
below the threshold: the result is the empty box sequence together with
`ok = true`, never an error. -/
theorem dino_predict_empty_ok (lowvram : Bool)
    (forward : ℕ → Dino.PILImage → String → Dino.ModelOutput)
    (img : Dino.PILImage) (name prompt : String) (t : ℚ)
    (s : Dino.DinoState)
    (hall : ∀ m i c, ∀ row ∈ (forward m i c).pred_logits,
      Dino.rowMax row ≤ t) :
    (Dino.dino_predict_internal true lowvram true true forward img name
        prompt t s).1
      = Except.ok (some [], true) := by
  obtain ⟨m, hm⟩ := load_dino_model_true_ok lowvram name s
  rcases hL : Dino.load_dino_model lowvram true true name s with ⟨res, s1⟩
  rw [hL] at hm
  simp only at hm
  subst hm
  simp only [Dino.dino_predict_internal, Dino.get_grounding_output, hL]
  rw [filterOutputs_empty _ _ _ (hall m img (Dino.normalizeCaption prompt))]
  simp

/-- C8 witness: stubbed model with confidence 0.2 against threshold 0.35
on a 640×480 image yields zero boxes and `ok = true`. -/
theorem dino_predict_empty_ok_witness :
    (Dino.dino_predict_internal true false true true Dino.stubLow
        Dino.imgVGA "GroundingDINO_SwinT_OGC (694MB)" "a cat." (35 / 100)
        Dino.initState).1
      = Except.ok (some [], true) :=
  dino_predict_empty_ok false Dino.stubLow Dino.imgVGA
    "GroundingDINO_SwinT_OGC (694MB)" "a cat." (35 / 100) Dino.initState
    (by
      intro m i c row hr
      simp only [Dino.stubLow, List.mem_singleton] at hr
      subst hr
      norm_num [Dino.rowMax, List.foldl])

/-- C6: the rescale step sends each kept normalized center-size box
(cx, cy, w, h) on a W×H image to the pixel corner box
(cx·W − w·W/2, cy·H − h·H/2, cx·W + w·W/2, cy·H + h·H/2); in particular,
on a 640×480 image with a stubbed model emitting one query of confidence
0.5 and box (0.5, 0.5, 0.2, 0.4) against threshold 0.35, the pipeline
returns exactly one box, (256, 144, 384, 336). -/
theorem dino_rescale_pixel_corners :
    (∀ W H cx cy w h : ℚ,
      Dino.rescaleBox W H (cx, cy, w, h)
        = (cx * W - w * W / 2, cy * H - h * H / 2,
           cx * W + w * W / 2, cy * H + h * H / 2)) ∧
    (Dino.dino_predict_internal true false true true Dino.stubHigh
        Dino.imgVGA "GroundingDINO_SwinT_OGC (694MB)" "a cat." (35 / 100)
        Dino.initState).1
      = Except.ok (some [((256 : ℚ), 144, 384, 336)], true) := by
  constructor
  · intro W H cx cy w h
    simp only [Dino.rescaleBox, Prod.mk.injEq]
    refine ⟨by ring_nf, by ring_nf, by ring_nf, by ring_nf⟩
  · norm_num [Dino.dino_predict_internal, Dino.load_dino_model, Dino.cacheFind,
      Dino.initState, Dino.clear_dino_cache, Dino.get_grounding_output,
      Dino.stubHigh, Dino.filterOutputs, Dino.applyMask, Dino.rowMax,
      Dino.rescaleBox, Dino.imgVGA, Dino.PILImage.size, List.foldl]

/-- C7: round-trip.  For positive image dimensions, rescaling a
normalized center-size box to a pixel corner box and converting back
(corner to center-size, divided by the image dimensions, as the spec
describes) reproduces the original box exactly — rationals model the
float computation, so the identity holds with zero tolerance. -/
theorem dino_rescale_roundtrip (W H cx cy w h : ℚ) (hW : 0 < W)
    (hH : 0 < H) :
    Dino.cornerToCenterNormSpec W H (Dino.rescaleBox W H (cx, cy, w, h))
      = (cx, cy, w, h) := by
  have hW0 : W ≠ 0 := ne_of_gt hW
  have hH0 : H ≠ 0 := ne_of_gt hH
  simp only [Dino.rescaleBox, Dino.cornerToCenterNormSpec, Prod.mk.injEq]
  refine ⟨?_, ?_, ?_, ?_⟩ <;> field_simp <;> ring

/-- C7 witness: the 640×480 round trip on box (0.5, 0.5, 0.2, 0.4). -/
theorem dino_rescale_roundtrip_witness :
    Dino.cornerToCenterNormSpec 640 480
        (Dino.rescaleBox 640 480 ((1 : ℚ) / 2, 1 / 2, 1 / 5, 2 / 5))
      = ((1 : ℚ) / 2, 1 / 2, 1 / 5, 2 / 5) :=
  dino_rescale_roundtrip 640 480 (1 / 2) (1 / 2) (1 / 5) (2 / 5)
    (by norm_num) (by norm_num)

/-- C10: a box whose originating normalized width and height are strictly
positive rescales, on an image of positive width and height, to a corner
box with x0 < x1 and y0 < y1 (the pipeline applies `rescaleBox` to every
kept box, and x1 = x0 + w·W, y1 = y0 + h·H by construction). -/
theorem dino_output_corners_ordered (W H cx cy w h : ℚ) (hW : 0 < W)
    (hH : 0 < H) (hw : 0 < w) (hh : 0 < h) :
    (Dino.rescaleBox W H (cx, cy, w, h)).1
      < (Dino.rescaleBox W H (cx, cy, w, h)).2.2.1 ∧
    (Dino.rescaleBox W H (cx, cy, w, h)).2.1
      < (Dino.rescaleBox W H (cx, cy, w, h)).2.2.2 := by
  simp only [Dino.rescaleBox]
  constructor
  · nlinarith [mul_pos hw hW]
  · nlinarith [mul_pos hh hH]

/-- C10 witness: the 640×480 box (0.5, 0.5, 0.2, 0.4) has ordered
corners. -/
theorem dino_output_corners_ordered_witness :
    (Dino.rescaleBox 640 480 ((1 : ℚ) / 2, 1 / 2, 1 / 5, 2 / 5)).1
      < (Dino.rescaleBox 640 480 ((1 : ℚ) / 2, 1 / 2, 1 / 5, 2 / 5)).2.2.1 ∧
    (Dino.rescaleBox 640 480 ((1 : ℚ) / 2, 1 / 2, 1 / 5, 2 / 5)).2.1
      < (Dino.rescaleBox 640 480 ((1 : ℚ) / 2, 1 / 2, 1 / 5, 2 / 5)).2.2.2 :=
  dino_output_corners_ordered 640 480 (1 / 2) (1 / 2) (1 / 5) (2 / 5)
    (by norm_num) (by norm_num) (by norm_num) (by norm_num)
